import Mathlib

/-!
# Stopwatch App: a shallow embedding of `script.js`

The script keeps four module-level variables (`timerInterval`, `isRunning`,
`milliseconds`, `lapCounter`) and mutates a handful of DOM nodes.  The
embedding makes all of that one explicit `State` record and turns every
function of the script into a pure state transformer.  `Date.now()` is an
explicit integer argument, and the browser's table of registered intervals
(`setInterval` / `clearInterval`) is a field of the state.

JavaScript numbers are IEEE binary64 values.  Every number the script holds
is integer-valued, so numbers are carried as integers (`Int`), and the two
places where binary64 shows are modelled as such: the quotient `a / b` is
rounded to 53 significant bits (ties to even) before `Math.floor` is taken,
and `String(n)` prints the shortest decimal that reads back as the same
number, in exponent form from `1e21` on.  The remainder `%` is exact in
binary64.  Clock differences (`Date.now() - startTime`) are taken exactly,
which is what binary64 does for operands below `2 ^ 53`.
-/

namespace Stopwatch

/-! ## Time formatting -/

/-- Rounding the quotient `p / q` to the nearest integer, a tie going to the
even neighbour. -/
def roundHalfEven (p q : Nat) : Nat :=
  let d := p / q
  let r := p % q
  if 2 * r < q then d
  else if q < 2 * r then d + 1
  else if d % 2 = 0 then d else d + 1

/-- Auxiliary recursion for `binaryLog`. -/
def log2Fuel : Nat → Nat → Nat
  | 0, _ => 0
  | fuel + 1, n => if n < 2 then 0 else log2Fuel fuel (n / 2) + 1

/-- The position of the leading bit: `2 ^ binaryLog n ≤ n < 2 ^ (binaryLog n + 1)`
for `n ≠ 0`. -/
def binaryLog (n : Nat) : Nat :=
  log2Fuel n n

/-- A non-negative binary64 value, written `mant * 2 ^ up / 2 ^ down`. -/
structure Double where
  mant : Nat
  up : Nat
  down : Nat
  deriving DecidableEq, Repr

/-- The binary64 quotient `a / b` of two non-negative integer-valued numbers,
`b` positive: the exact quotient rounded to 53 significant bits, ties to
even.  With `2 ^ k ≤ a / b < 2 ^ (k + 1)` the result is a multiple of
`2 ^ (k - 52)`. -/
def divDouble (a b : Nat) : Double :=
  if a = 0 then { mant := 0, up := 0, down := 0 }
  else if b ≤ a then
    let k := binaryLog (a / b)
    if 52 ≤ k then { mant := roundHalfEven a (b * 2 ^ (k - 52)), up := k - 52, down := 0 }
    else { mant := roundHalfEven (a * 2 ^ (52 - k)) b, up := 0, down := 52 - k }
  else
    let j := binaryLog ((b - 1) / a) + 1
    { mant := roundHalfEven (a * 2 ^ (52 + j)) b, up := 0, down := 52 + j }

/-- The largest integer not above the value. -/
def Double.floor (x : Double) : Nat :=
  x.mant * 2 ^ x.up / 2 ^ x.down

/-- The smallest integer not below the value. -/
def Double.ceil (x : Double) : Nat :=
  (x.mant * 2 ^ x.up + (2 ^ x.down - 1)) / 2 ^ x.down

/-- JavaScript `Math.floor(a / b)` for an integer-valued `a` and a positive
integer `b`: the floor of the rounded quotient. -/
def mathFloorDiv (a : Int) (b : Nat) : Int :=
  if 0 ≤ a then ((divDouble a.natAbs b).floor : Int)
  else -((divDouble a.natAbs b).ceil : Int)

/-- The binary64 number nearest to the integer `v` (itself an integer). -/
def toDouble (v : Nat) : Nat :=
  (divDouble v 1).floor

/-- Whether the integer is a value a JavaScript number can hold exactly: it
is its own nearest binary64 number and lies in the finite range, below
`2 ^ 1024`. -/
def isExactDouble (n : Nat) : Bool :=
  decide (toDouble n = n) && decide (binaryLog n < 1024)

/-- The candidates of `shortestDecimal` at the power of ten `10 ^ j`: the two
multiples of `10 ^ j` next to `x`.  The result is the one that reads back as
`x`, the nearer one if both do (the even multiple at a tie), and nothing if
neither does. -/
def shortestAt (x j : Nat) : Option Nat :=
  let p := 10 ^ j
  let v1 := x / p * p
  let v2 := v1 + p
  let ok1 := decide (v1 ≠ 0 ∧ toDouble v1 = x)
  let ok2 := decide (toDouble v2 = x)
  if ok1 && ok2 then
    (if x - v1 < v2 - x then some v1
     else if v2 - x < x - v1 then some v2
     else if (x / p) % 2 = 0 then some v1 else some v2)
  else if ok1 then some v1
  else if ok2 then some v2
  else none

/-- The decimal that `String` prints for the integer-valued number `x`: the
integer with the fewest significant digits that reads back as `x`, the one
nearest to `x` if there are several.  The search goes through the powers of
ten from the coarsest. -/
def shortestDecimal (x : Nat) : Nat :=
  (((List.range ((Nat.repr x).length + 1)).reverse).findSome? (shortestAt x)).getD x

/-- Dropping the trailing zeros of a decimal. -/
def stripZeros : Nat → Nat → Nat
  | 0, v => v
  | fuel + 1, v => if v ≠ 0 ∧ v % 10 = 0 then stripZeros fuel (v / 10) else v

/-- JavaScript `String(x)` for a non-negative integer-valued number: the
digits of the shortest decimal below `1e21`, and from there on the form
`d.ddde+XX`. -/
def natToString (x : Nat) : String :=
  let v := shortestDecimal x
  if v < 10 ^ 21 then Nat.repr v
  else
    let n := (Nat.repr v).length
    match (Nat.repr (stripZeros n v)).data with
    | [] => ""
    | [d] => ⟨[d]⟩ ++ "e+" ++ Nat.repr (n - 1)
    | d :: rest => ⟨d :: '.' :: rest⟩ ++ "e+" ++ Nat.repr (n - 1)

/-- JavaScript `String(n)` for an integer-valued number, with a leading minus
sign for a negative value. -/
def numberToString (n : Int) : String :=
  match n with
  | Int.ofNat m => natToString m
  | Int.negSucc m => "-" ++ natToString (m + 1)

/-- JavaScript `s.padStart(targetLength, c)` for a one-character pad string:
the string is returned as is when it is already long enough, otherwise copies
of the pad character are put in front until `targetLength` is reached. -/
def padStart (s : String) (targetLength : Nat) (c : Char) : String :=
  ⟨List.replicate (targetLength - s.length) c ++ s.data⟩

/-- The object returned by `formatTime`. -/
structure TimeParts where
  hours : String
  minutes : String
  seconds : String
  milliseconds : String
  deriving DecidableEq, Repr

/-- The function `formatTime(ms)` (script.js lines 30-43); `ms` is the
integer-valued number passed in.  The divisions are binary64 divisions
followed by `Math.floor`, and the JavaScript `%` is the truncating remainder,
which binary64 computes exactly. -/
def formatTime (ms : Int) : TimeParts :=
  let totalSeconds := mathFloorDiv ms 1000
  let hours := mathFloorDiv totalSeconds 3600
  let minutes := mathFloorDiv (Int.tmod totalSeconds 3600) 60
  let seconds := Int.tmod totalSeconds 60
  let millisecondsRemainder := Int.tmod ms 1000
  { hours := padStart (numberToString hours) 2 '0'
    minutes := padStart (numberToString minutes) 2 '0'
    seconds := padStart (numberToString seconds) 2 '0'
    milliseconds := padStart (numberToString millisecondsRemainder) 3 '0' }

/-- Reading a string as a decimal number: defined when the string is a
non-empty run of the digits `0`..`9`, and then its value in base ten. -/
def readDecimal (s : String) : Option Nat :=
  if s.data ≠ [] ∧ s.data.all Char.isDigit = true then
    some (s.data.foldl (fun acc c => 10 * acc + (c.toNat - 48)) 0)
  else none

/-! ## The stopwatch state -/

/-- A button of the page: its `disabled` property and the inline
`style.opacity`, which is absent until the script assigns it. -/
structure Button where
  disabled : Bool
  opacity : Option String
  deriving DecidableEq, Repr

/-- One child of `lapsList`, as built by `recordLap`: the lap number and the
time string interpolated into its markup. -/
structure LapItem where
  lapNumber : Nat
  timeString : String
  deriving DecidableEq, Repr

/-- The `innerHTML` that `recordLap` assigns to a lap item (lines 161-164). -/
def LapItem.innerHTML (item : LapItem) : String :=
  "\n        <span class=\"lap-number\">Lap " ++ natToString item.lapNumber ++ "</span>\n"
    ++ "        <span class=\"lap-time\">" ++ item.timeString ++ "</span>\n    "

/-- The module variables of the script, the browser's table of registered
intervals and the DOM nodes the script writes.

An entry `(handle, startTime)` of `intervals` is an interval created by
`setInterval` and not yet cleared; `startTime` is the constant captured by its
callback.  `nextHandle` is the handle the next `setInterval` call returns. -/
structure State where
  timerInterval : Option Nat
  isRunning : Bool
  milliseconds : Int
  lapCounter : Nat
  intervals : List (Nat × Int)
  nextHandle : Nat
  hoursText : String
  minutesText : String
  secondsText : String
  millisecondsText : String
  startBtn : Button
  stopBtn : Button
  lapBtn : Button
  resetBtn : Button
  lapsList : List LapItem
  lapsContainerActive : Bool
  deriving DecidableEq, Repr

/-- The function `updateDisplay()` (lines 48-56). -/
def updateDisplay (s : State) : State :=
  let time := formatTime s.milliseconds
  { s with
    hoursText := time.hours
    minutesText := time.minutes
    secondsText := time.seconds
    millisecondsText := "." ++ time.milliseconds }

/-- The callback that `startTimer` hands to `setInterval` (lines 72-75), run
at clock reading `now`; `startTime` is the value captured by the closure. -/
def intervalCallback (startTime now : Int) (s : State) : State :=
  updateDisplay { s with milliseconds := now - startTime }

/-- The browser call `clearInterval(handle)`: removes the interval with that handle from the
table; a `null` or unknown handle changes nothing. -/
def clearInterval (handle : Option Nat) (s : State) : State :=
  { s with intervals := s.intervals.filter (fun p => decide (some p.1 ≠ handle)) }

/-- The function `startTimer()` (lines 62-86), called at clock reading `now`. -/
def startTimer (now : Int) (s : State) : State :=
  if s.isRunning then s
  else
    let startTime := now - s.milliseconds
    { s with
      isRunning := true
      timerInterval := some s.nextHandle
      intervals := s.intervals ++ [(s.nextHandle, startTime)]
      nextHandle := s.nextHandle + 1
      startBtn := { disabled := true, opacity := some "0.5" }
      stopBtn := { disabled := false, opacity := some "1" }
      lapBtn := { disabled := false, opacity := some "1" } }

/-- The function `stopTimer()` (lines 92-108). -/
def stopTimer (s : State) : State :=
  if !s.isRunning then s
  else
    let s1 := clearInterval s.timerInterval { s with isRunning := false }
    { s1 with
      timerInterval := none
      startBtn := { disabled := false, opacity := some "1" }
      stopBtn := { disabled := true, opacity := some "0.5" }
      lapBtn := { disabled := true, opacity := some "0.5" } }

/-- The function `resetTimer()` (lines 114-141). -/
def resetTimer (s : State) : State :=
  let s1 := if s.isRunning then stopTimer s else s
  let s2 := updateDisplay { s1 with milliseconds := 0, lapCounter := 0 }
  { s2 with
    lapsList := []
    lapsContainerActive := false
    startBtn := { disabled := false, opacity := some "1" }
    stopBtn := { disabled := true, opacity := some "0.5" }
    lapBtn := { disabled := true, opacity := some "0.5" }
    resetBtn := { s2.resetBtn with disabled := false } }

/-- The lap text `HH:MM:SS.mmm` built in `recordLap` (line 156). -/
def timeString (time : TimeParts) : String :=
  time.hours ++ ":" ++ time.minutes ++ ":" ++ time.seconds ++ "." ++ time.milliseconds

/-- The function `recordLap()` (lines 151-171). -/
def recordLap (s : State) : State :=
  if !s.isRunning then s
  else
    let lapCounter := s.lapCounter + 1
    let time := formatTime s.milliseconds
    let lapItem : LapItem := { lapNumber := lapCounter, timeString := timeString time }
    { s with
      lapCounter := lapCounter
      lapsList := lapItem :: s.lapsList
      lapsContainerActive := true }

/-- The browser fires the interval with the given handle at clock reading
`now`.  Nothing happens when no interval with that handle is registered. -/
def tick (handle : Nat) (now : Int) (s : State) : State :=
  match s.intervals.find? (fun p => p.1 == handle) with
  | some p => intervalCallback p.2 now s
  | none => s

/-- JavaScript `s.toLowerCase()` on the letters that matter here: the ASCII
capitals are mapped to their small letters.  Characters outside ASCII are left
alone; none of them has `s`, `p`, `r` or `l` as its lower case, so the
comparisons in `keydown` come out as in the script. -/
def toLowerCase (s : String) : String :=
  ⟨s.data.map Char.toLower⟩

/-- The `keydown` listener (lines 224-239); `now` is the clock reading should
the handler start the timer. -/
def keydown (key : String) (now : Int) (s : State) : State :=
  let k := toLowerCase key
  if k = "s" then (if !s.isRunning then startTimer now s else s)
  else if k = "p" then (if s.isRunning then stopTimer s else s)
  else if k = "r" then resetTimer s
  else if k = "l" then (if s.isRunning then recordLap s else s)
  else s

/-- What can happen to the page, each with the clock reading `now` at which
it happens: a click on one of the four buttons, a key press, or the browser
firing an interval. -/
inductive Event where
  | start (now : Int)
  | stop (now : Int)
  | reset (now : Int)
  | lap (now : Int)
  | key (key : String) (now : Int)
  | tick (handle : Nat) (now : Int)
  deriving DecidableEq, Repr

/-- One event applied to the state.  Only `startTimer` and the interval
callback read the clock; `stopTimer`, `resetTimer` and `recordLap` do not
call `Date.now()`, so the reading of their events is not passed on. -/
def step (s : State) : Event → State
  | Event.start now => startTimer now s
  | Event.stop _ => stopTimer s
  | Event.reset _ => resetTimer s
  | Event.lap _ => recordLap s
  | Event.key k now => keydown k now s
  | Event.tick handle now => tick handle now s

/-- A sequence of events applied in order. -/
def run (evs : List Event) (s : State) : State :=
  evs.foldl step s

/-- Modelled from the spec: the page markup (index.html) is not among the
sources, so the attributes the buttons start with are those of the spec's
affordance table for running = false (start enabled, stop and lap disabled,
reset enabled), with no inline opacity and an empty lap list.  The module
variables are initialised as in lines 16-19 and the texts are what the
`DOMContentLoaded` handler's `updateDisplay()` call writes (line 247). -/
def initialState : State :=
  updateDisplay
    { timerInterval := none
      isRunning := false
      milliseconds := 0
      lapCounter := 0
      intervals := []
      nextHandle := 1
      hoursText := ""
      minutesText := ""
      secondsText := ""
      millisecondsText := ""
      startBtn := { disabled := false, opacity := none }
      stopBtn := { disabled := true, opacity := none }
      lapBtn := { disabled := true, opacity := none }
      resetBtn := { disabled := false, opacity := none }
      lapsList := []
      lapsContainerActive := false }

/-- The events that fire the given interval handle at each of the clock
readings, in order. -/
def ticksOf (handle : Nat) (readings : List Int) : List Event :=
  readings.map (Event.tick handle)

/-- The events that fire intervals as listed: each entry is a handle and the
clock reading at which the browser fires it. -/
def firings (ticks : List (Nat × Int)) : List Event :=
  ticks.map (fun p => Event.tick p.1 p.2)

/-- Whether the event is a lap request (the lap button or the `l` key). -/
def Event.isLap : Event → Bool
  | Event.lap _ => true
  | Event.key k _ => decide (toLowerCase k = "l")
  | _ => false

/-- Whether the event is a reset request (the reset button or the `r` key). -/
def Event.isReset : Event → Bool
  | Event.reset _ => true
  | Event.key k _ => decide (toLowerCase k = "r")
  | _ => false

/-- The elapsed values (`milliseconds`) at the lap requests made while
running, in the order in which they were made. -/
def lapCaptures : State → List Event → List Int
  | _, [] => []
  | s, e :: es =>
    (if e.isLap && s.isRunning then [s.milliseconds] else []) ++ lapCaptures (step s e) es

/-- The lap list the specification expects after laps at the elapsed values
`Ts` following `c` earlier laps: lap `c + i` shows the `i`-th value, and the
newest lap comes first. -/
def lapEntriesFrom (c : Nat) : List Int → List LapItem
  | [] => []
  | T :: Ts =>
    lapEntriesFrom (c + 1) Ts ++ [{ lapNumber := c + 1, timeString := timeString (formatTime T) }]

/-- The lap list the specification expects after laps at the elapsed values
`Ts` since the last reset: `[(n, Tn), ..., (1, T1)]`. -/
def lapEntries (Ts : List Int) : List LapItem :=
  lapEntriesFrom 0 Ts

/-- The pause/resume scenario: start at `t0`, the first interval (handle 1)
fires at the readings `ticks1`, stop at `t0 + D1`, any interval firings
`gap` while paused, start again at `t1`, the second interval (handle 2) fires
at the readings `ticks2`, stop at `t1 + D2`. -/
def pauseResume (t0 : Int) (ticks1 : List Int) (D1 : Int) (gap : List (Nat × Int))
    (t1 : Int) (ticks2 : List Int) (D2 : Int) : List Event :=
  [Event.start t0] ++ ticksOf 1 ticks1 ++ [Event.stop (t0 + D1)]
    ++ firings gap
    ++ [Event.start t1] ++ ticksOf 2 ticks2 ++ [Event.stop (t1 + D2)]

/-- The stopwatch is stopped and nothing is scheduled: no handle is stored and
the browser holds no interval of the script. -/
def Idle (s : State) : Prop :=
  s.isRunning = false ∧ s.timerInterval = none ∧ s.intervals = []

/-- The stopwatch is running on exactly one interval: the one with handle
`handle`, whose callback captured `startTime`. -/
def RunningWith (s : State) (handle : Nat) (startTime : Int) : Prop :=
  s.isRunning = true ∧ s.timerInterval = some handle ∧ s.intervals = [(handle, startTime)]

/-- The scheduling invariant: either idle or running on exactly one interval. -/
def Scheduled (s : State) : Prop :=
  Idle s ∨ ∃ handle startTime, RunningWith s handle startTime

/-- The inline opacity of a button, once the script has set it, is `0.5` on a
disabled button and `1` on an enabled one. -/
def Button.opacityMatches (b : Button) : Prop :=
  b.opacity = none ∨ b.opacity = some (if b.disabled then "0.5" else "1")

instance (b : Button) : Decidable b.opacityMatches :=
  inferInstanceAs (Decidable (b.opacity = none ∨ b.opacity = some (if b.disabled then "0.5" else "1")))

/-- The affordance table of the page: start is disabled exactly while
running, stop and lap are enabled exactly while running, reset is enabled,
and every opacity that has been set agrees with the disabled flag. -/
def Affordances (s : State) : Prop :=
  s.startBtn.disabled = s.isRunning ∧
  s.stopBtn.disabled = !s.isRunning ∧
  s.lapBtn.disabled = !s.isRunning ∧
  s.resetBtn.disabled = false ∧
  s.startBtn.opacityMatches ∧ s.stopBtn.opacityMatches ∧ s.lapBtn.opacityMatches

instance (s : State) : Decidable (Affordances s) :=
  inferInstanceAs (Decidable (_ ∧ _ ∧ _ ∧ _ ∧ _ ∧ _ ∧ _))

instance (s : State) : Decidable (Idle s) :=
  inferInstanceAs (Decidable (_ ∧ _ ∧ _))

instance (s : State) (handle : Nat) (startTime : Int) : Decidable (RunningWith s handle startTime) :=
  inferInstanceAs (Decidable (_ ∧ _ ∧ _))

/-! ## Theme preference -/

/-- The part of the page the theme functions touch: whether `body` carries
the class `dark-theme`, the text of the theme icon, and the `theme` entry of
`localStorage` (absent or a string). -/
structure ThemeState where
  darkTheme : Bool
  themeIcon : String
  storedTheme : Option String
  deriving DecidableEq, Repr

/-- The function `toggleTheme()` (lines 181-196). -/
def toggleTheme (s : ThemeState) : ThemeState :=
  let s1 := { s with darkTheme := !s.darkTheme }
  if s1.darkTheme then
    { s1 with themeIcon := "☀️", storedTheme := some "dark" }
  else
    { s1 with themeIcon := "🌙", storedTheme := some "light" }

/-- The function `loadTheme()` (lines 201-210). -/
def loadTheme (s : ThemeState) : ThemeState :=
  if s.storedTheme = some "dark" then
    { s with darkTheme := true, themeIcon := "☀️" }
  else s

/-- Modelled from the spec: the page markup is not among the sources; a fresh
session starts with the light theme (no `dark-theme` class on `body`, the
moon icon) and with whatever the storage slot holds from earlier sessions. -/
def freshSession (slot : Option String) : ThemeState :=
  { darkTheme := false, themeIcon := "🌙", storedTheme := slot }

end Stopwatch

/-! ## Decimal strings -/

namespace Stopwatch

theorem digitChar_isDigit_toNat :
    ∀ m, m < 10 → (Nat.digitChar m).isDigit = true ∧ (Nat.digitChar m).toNat - 48 = m := by
  decide

/-- Leading zeros do not change the value read. -/
theorem foldl_replicate_zero (k : Nat) :
    List.foldl (fun acc c => 10 * acc + (c.toNat - 48)) 0 (List.replicate k '0') = 0 := by
  induction k with
  | zero => rfl
  | succ k ih => rw [List.replicate_succ, List.foldl_cons]; exact ih

theorem toDigitsCore_spec (fuel : Nat) : ∀ (n : Nat) (ds : List Char), n < fuel →
    ∃ pre : List Char, Nat.toDigitsCore 10 fuel n ds = pre ++ ds ∧ pre ≠ [] ∧
      pre.all Char.isDigit = true ∧
      (∀ a, List.foldl (fun acc c => 10 * acc + (c.toNat - 48)) a pre
        = a * 10 ^ pre.length + n) ∧
      n < 10 ^ pre.length ∧ (n ≠ 0 → 10 ^ pre.length ≤ 10 * n) := by
  induction fuel with
  | zero => intro n ds h; omega
  | succ fuel ih =>
    intro n ds hn
    have step : Nat.toDigitsCore 10 (fuel + 1) n ds =
        if n / 10 = 0 then Nat.digitChar (n % 10) :: ds
        else Nat.toDigitsCore 10 fuel (n / 10) (Nat.digitChar (n % 10) :: ds) := rfl
    rw [step]
    obtain ⟨hd1, hd2⟩ := digitChar_isDigit_toNat (n % 10) (Nat.mod_lt _ (by decide))
    generalize Nat.digitChar (n % 10) = d at hd1 hd2 ⊢
    have hdm := Nat.div_add_mod n 10
    by_cases h0 : n / 10 = 0
    · rw [if_pos h0]
      refine ⟨[d], rfl, by simp, by simp [hd1], ?_, ?_, ?_⟩
      · intro a
        show 10 * a + (d.toNat - 48) = a * 10 ^ 1 + n
        rw [hd2]; omega
      · show n < 10 ^ 1
        omega
      · intro _
        show 10 ^ 1 ≤ 10 * n
        omega
    · rw [if_neg h0]
      obtain ⟨pre, h1, h2, h3, h4, h5, h6⟩ := ih (n / 10) (d :: ds) (by omega)
      have h6 := h6 h0
      have hlen : (pre ++ [d]).length = pre.length + 1 := by simp
      refine ⟨pre ++ [d], by simp [h1], by simp, ?_, ?_, ?_, ?_⟩
      · rw [List.all_append, h3]; simp [hd1]
      · intro a
        rw [List.foldl_append, h4 a, hlen, pow_succ]
        show 10 * (a * 10 ^ pre.length + n / 10) + (d.toNat - 48) = _
        rw [hd2]
        linarith
      · rw [hlen, pow_succ]; omega
      · intro _
        rw [hlen, pow_succ]; omega

/-- The decimal digits of a natural number: a non-empty digit string whose
value is the number, with no more digits than the number needs. -/
theorem repr_spec (n : Nat) :
    (Nat.repr n).data ≠ [] ∧ (Nat.repr n).data.all Char.isDigit = true ∧
      List.foldl (fun acc c => 10 * acc + (c.toNat - 48)) 0 (Nat.repr n).data = n ∧
      n < 10 ^ (Nat.repr n).length ∧ (n ≠ 0 → 10 ^ (Nat.repr n).length ≤ 10 * n) := by
  obtain ⟨pre, h1, h2, h3, h4, h5, h6⟩ := toDigitsCore_spec (n + 1) n [] (Nat.lt_succ_self n)
  have hdata : (Nat.repr n).data = pre := by
    show Nat.toDigitsCore 10 (n + 1) n [] = pre
    rw [h1, List.append_nil]
  have hlen : (Nat.repr n).length = pre.length := congrArg List.length hdata
  rw [hdata, hlen]
  exact ⟨h2, h3, by simpa using h4 0, h5, h6⟩

theorem repr_length_pos (n : Nat) : 1 ≤ (Nat.repr n).length := by
  have h := (repr_spec n).1
  show 1 ≤ (Nat.repr n).data.length
  exact List.length_pos.mpr h

theorem repr_length_le_two (n : Nat) (h : n < 100) : (Nat.repr n).length ≤ 2 := by
  obtain ⟨_, _, _, h4, h5⟩ := repr_spec n
  by_contra hc
  have h3 : 3 ≤ (Nat.repr n).length := by omega
  have hp : 10 ^ 3 ≤ 10 ^ (Nat.repr n).length := Nat.pow_le_pow_right (by decide) h3
  by_cases h0 : n = 0
  · subst h0; exact absurd h3 (by decide)
  · have := h5 h0; omega

theorem repr_length_le_three (n : Nat) (h : n < 1000) : (Nat.repr n).length ≤ 3 := by
  obtain ⟨_, _, _, h4, h5⟩ := repr_spec n
  by_contra hc
  have h3 : 4 ≤ (Nat.repr n).length := by omega
  have hp : 10 ^ 4 ≤ 10 ^ (Nat.repr n).length := Nat.pow_le_pow_right (by decide) h3
  by_cases h0 : n = 0
  · subst h0; exact absurd h3 (by decide)
  · have := h5 h0; omega

theorem repr_length_ge_three (n : Nat) (h : 100 ≤ n) : 3 ≤ (Nat.repr n).length := by
  obtain ⟨_, _, _, h4, _⟩ := repr_spec n
  by_contra hc
  have h2 : (Nat.repr n).length ≤ 2 := by omega
  have hp : 10 ^ (Nat.repr n).length ≤ 10 ^ 2 := Nat.pow_le_pow_right (by decide) h2
  omega

/-! ## Binary64 division and printing below `2 ^ 53` -/

theorem log2Fuel_spec (fuel : Nat) : ∀ n, n ≤ fuel → n ≠ 0 →
    2 ^ log2Fuel fuel n ≤ n ∧ n < 2 ^ (log2Fuel fuel n + 1) := by
  induction fuel with
  | zero => intro n h h0; omega
  | succ fuel ih =>
    intro n h h0
    unfold log2Fuel
    by_cases h2 : n < 2
    · rw [if_pos h2]
      have : n = 1 := by omega
      subst this
      exact ⟨by decide, by decide⟩
    · rw [if_neg h2]
      obtain ⟨a, b⟩ := ih (n / 2) (by omega) (by omega)
      rw [pow_succ, pow_succ]
      rw [pow_succ] at b
      constructor <;> omega

theorem binaryLog_spec (n : Nat) (h : n ≠ 0) :
    2 ^ binaryLog n ≤ n ∧ n < 2 ^ (binaryLog n + 1) :=
  log2Fuel_spec n n (Nat.le_refl n) h

theorem roundHalfEven_ge (p q : Nat) : p / q ≤ roundHalfEven p q := by
  unfold roundHalfEven
  simp only
  split_ifs <;> omega

theorem roundHalfEven_lt (p q t : Nat) (hq : 0 < q) (hp : p < t * q)
    (h : q < 2 * (t * q - p)) : roundHalfEven p q < t := by
  have hd : p / q < t := (Nat.div_lt_iff_lt_mul hq).mpr hp
  have hdm := Nat.div_add_mod p q
  have hr := Nat.mod_lt p hq
  have key : ¬ 2 * (p % q) < q → p / q + 1 < t := by
    intro hn
    by_contra hc
    have ht : t = p / q + 1 := by omega
    have hT : t * q = q * (p / q) + q := by rw [ht]; ring
    omega
  unfold roundHalfEven
  simp only
  split_ifs with h1 h2 h3
  · exact hd
  · exact key h1
  · exact hd
  · exact key h1

/-- Rounding at a grain finer than half of `1 / b` never reaches the next
integer: the floor of the rounded quotient is the integer quotient. -/
theorem floor_round (a b sh : Nat) (hb : 0 < b) (hsh : b < 2 ^ (sh + 1)) :
    roundHalfEven (a * 2 ^ sh) b / 2 ^ sh = a / b := by
  have hdm := Nat.div_add_mod a b
  have hr := Nat.mod_lt a hb
  have hpos : 0 < 2 ^ sh := Nat.two_pow_pos sh
  have hlo : a / b * 2 ^ sh ≤ roundHalfEven (a * 2 ^ sh) b := by
    refine le_trans ?_ (roundHalfEven_ge _ _)
    rw [Nat.le_div_iff_mul_le hb]
    have : a / b * b ≤ a := Nat.div_mul_le_self a b
    calc a / b * 2 ^ sh * b = a / b * b * 2 ^ sh := by ring
      _ ≤ a * 2 ^ sh := Nat.mul_le_mul_right _ this
  have hlt : a < (a / b + 1) * b := by
    have : (a / b + 1) * b = b * (a / b) + b := by ring
    omega
  have hhi : roundHalfEven (a * 2 ^ sh) b < (a / b + 1) * 2 ^ sh := by
    apply roundHalfEven_lt _ _ _ hb
    · calc a * 2 ^ sh < (a / b + 1) * b * 2 ^ sh := Nat.mul_lt_mul_of_pos_right hlt hpos
        _ = (a / b + 1) * 2 ^ sh * b := by ring
    · have e : (a / b + 1) * 2 ^ sh * b - a * 2 ^ sh = (b - a % b) * 2 ^ sh := by
        have h1 : (a / b + 1) * 2 ^ sh * b = (b * (a / b) + b) * 2 ^ sh := by ring
        rw [h1, ← Nat.sub_mul]
        congr 1
        omega
      rw [e]
      have h2 : 1 * 2 ^ sh ≤ (b - a % b) * 2 ^ sh := Nat.mul_le_mul_right _ (by omega)
      rw [pow_succ] at hsh
      omega
  exact Nat.div_eq_of_lt_le (by simpa using hlo) (by simpa [Nat.succ_eq_add_one] using hhi)

/-- Below `2 ^ 53` the binary64 quotient, floored, is the integer quotient. -/
theorem floor_divDouble (a b : Nat) (hb : 0 < b) (ha : a < 2 ^ 53) :
    (divDouble a b).floor = a / b := by
  unfold divDouble
  by_cases h0 : a = 0
  · subst h0; simp [Double.floor]
  rw [if_neg h0]
  by_cases hba : b ≤ a
  · rw [if_pos hba]
    have hd0 : a / b ≠ 0 := by
      have := (Nat.le_div_iff_mul_le hb).mpr (by simpa using hba : 1 * b ≤ a)
      omega
    obtain ⟨k1, k2⟩ := binaryLog_spec (a / b) hd0
    have hdb : a / b * b ≤ a := Nat.div_mul_le_self a b
    have hkb : 2 ^ binaryLog (a / b) * b < 2 ^ 53 :=
      lt_of_le_of_lt (le_trans (Nat.mul_le_mul_right b k1) hdb) ha
    have hk53 : binaryLog (a / b) < 53 := by
      by_contra hc
      have : 2 ^ 53 ≤ 2 ^ binaryLog (a / b) := Nat.pow_le_pow_right (by decide) (by omega)
      have : 2 ^ binaryLog (a / b) * 1 ≤ 2 ^ binaryLog (a / b) * b := Nat.mul_le_mul_left _ hb
      omega
    simp only
    by_cases hk : 52 ≤ binaryLog (a / b)
    · rw [if_pos hk]
      have hk52 : binaryLog (a / b) = 52 := by omega
      rw [hk52] at hkb
      have hb1 : b = 1 := by
        by_contra hc
        have : 2 ^ 52 * 2 ≤ 2 ^ 52 * b := Nat.mul_le_mul_left _ (by omega)
        omega
      rw [hk52]
      subst hb1
      simp [Double.floor, roundHalfEven, Nat.mod_one]
    · rw [if_neg hk]
      show roundHalfEven (a * 2 ^ (52 - binaryLog (a / b))) b * 2 ^ 0
        / 2 ^ (52 - binaryLog (a / b)) = a / b
      rw [pow_zero, Nat.mul_one]
      apply floor_round a b _ hb
      have e : 2 ^ 53 = 2 ^ binaryLog (a / b) * 2 ^ (52 - binaryLog (a / b) + 1) := by
        rw [← pow_add]; congr 1; omega
      rw [e] at hkb
      exact Nat.lt_of_mul_lt_mul_left hkb
  · rw [if_neg hba]
    show roundHalfEven (a * 2 ^ (52 + (binaryLog ((b - 1) / a) + 1))) b * 2 ^ 0
      / 2 ^ (52 + (binaryLog ((b - 1) / a) + 1)) = a / b
    rw [pow_zero, Nat.mul_one]
    apply floor_round a b _ hb
    have hapos : 0 < a := Nat.pos_of_ne_zero h0
    have hq0 : (b - 1) / a ≠ 0 := by
      have := (Nat.le_div_iff_mul_le hapos).mpr (by omega : 1 * a ≤ b - 1)
      omega
    obtain ⟨_, k2⟩ := binaryLog_spec ((b - 1) / a) hq0
    have h1 : b - 1 < 2 ^ (binaryLog ((b - 1) / a) + 1) * a :=
      (Nat.div_lt_iff_lt_mul hapos).mp k2
    have h2 : 2 ^ (binaryLog ((b - 1) / a) + 1) * a
        < 2 ^ (binaryLog ((b - 1) / a) + 1) * 2 ^ 53 :=
      Nat.mul_lt_mul_of_pos_left ha (Nat.two_pow_pos _)
    have e : 2 ^ (52 + (binaryLog ((b - 1) / a) + 1) + 1)
        = 2 ^ (binaryLog ((b - 1) / a) + 1) * 2 ^ 53 := by
      rw [← pow_add]; congr 1; omega
    rw [e]
    omega

theorem toDouble_of_lt (v : Nat) (h : v < 2 ^ 53) : toDouble v = v := by
  unfold toDouble
  rw [floor_divDouble v 1 (by decide) h, Nat.div_one]

theorem toDouble_ge (v : Nat) (h : 2 ^ 53 ≤ v) : 2 ^ 53 ≤ toDouble v := by
  have h0 : v ≠ 0 := by
    intro e; rw [e] at h; exact absurd h (by decide)
  have h1 : 1 ≤ v := Nat.pos_of_ne_zero h0
  obtain ⟨k1, k2⟩ := binaryLog_spec v h0
  have hk : 53 ≤ binaryLog v := by
    by_contra hc
    have : 2 ^ (binaryLog v + 1) ≤ 2 ^ 53 := Nat.pow_le_pow_right (by decide) (by omega)
    omega
  have hk52 : 52 ≤ binaryLog v := by omega
  unfold toDouble divDouble
  rw [if_neg h0, if_pos h1]
  simp only [Nat.div_one]
  rw [if_pos hk52]
  show 2 ^ 53 ≤ roundHalfEven v (1 * 2 ^ (binaryLog v - 52)) * 2 ^ (binaryLog v - 52) / 2 ^ 0
  rw [pow_zero, Nat.div_one, Nat.one_mul]
  have e : 2 ^ binaryLog v = 2 ^ 52 * 2 ^ (binaryLog v - 52) := by
    rw [← pow_add]; congr 1; omega
  have hm : 2 ^ 52 ≤ roundHalfEven v (2 ^ (binaryLog v - 52)) := by
    refine le_trans ?_ (roundHalfEven_ge _ _)
    rw [Nat.le_div_iff_mul_le (Nat.two_pow_pos _), ← e]
    exact k1
  calc 2 ^ 53 ≤ 2 ^ binaryLog v := Nat.pow_le_pow_right (by decide) hk
    _ = 2 ^ 52 * 2 ^ (binaryLog v - 52) := e
    _ ≤ _ := Nat.mul_le_mul_right _ hm

theorem shortestAt_of_lt (x j : Nat) (h : x < 2 ^ 53) :
    shortestAt x j = none ∨ shortestAt x j = some x := by
  have hp : 0 < 10 ^ j := pow_pos (by decide) j
  have hv1 : x / 10 ^ j * 10 ^ j ≤ x := Nat.div_mul_le_self x _
  have hv2 : x < x / 10 ^ j * 10 ^ j + 10 ^ j := by
    have := Nat.div_add_mod x (10 ^ j)
    have := Nat.mod_lt x hp
    have : 10 ^ j * (x / 10 ^ j) = x / 10 ^ j * 10 ^ j := Nat.mul_comm _ _
    omega
  have e1 : toDouble (x / 10 ^ j * 10 ^ j) = x / 10 ^ j * 10 ^ j :=
    toDouble_of_lt _ (lt_of_le_of_lt hv1 h)
  have e2 : toDouble (x / 10 ^ j * 10 ^ j + 10 ^ j) ≠ x := by
    by_cases hlt : x / 10 ^ j * 10 ^ j + 10 ^ j < 2 ^ 53
    · rw [toDouble_of_lt _ hlt]; omega
    · have := toDouble_ge _ (by omega : 2 ^ 53 ≤ x / 10 ^ j * 10 ^ j + 10 ^ j)
      omega
  unfold shortestAt
  simp only [e1, e2, decide_False, Bool.and_false, Bool.false_eq_true, if_false]
  by_cases hx : x / 10 ^ j * 10 ^ j = x
  · by_cases h0 : x = 0
    · left; simp [hx, h0]
    · right; simp [hx, h0]
  · left; simp [hx]

theorem findSome_getD (f : Nat → Option Nat) (x : Nat) :
    ∀ l : List Nat, (∀ j ∈ l, f j = none ∨ f j = some x) → (l.findSome? f).getD x = x := by
  intro l
  induction l with
  | nil => intro _; rfl
  | cons a l ih =>
    intro h
    rcases h a (List.mem_cons_self _ _) with ha | ha
    · rw [List.findSome?_cons, ha]
      exact ih (fun j hj => h j (List.mem_cons_of_mem _ hj))
    · rw [List.findSome?_cons, ha]
      rfl

theorem shortestDecimal_of_lt (x : Nat) (h : x < 2 ^ 53) : shortestDecimal x = x :=
  findSome_getD _ x _ (fun j _ => shortestAt_of_lt x j h)

/-- An integer below `2 ^ 53` prints as its decimal digits. -/
theorem natToString_of_lt (x : Nat) (h : x < 2 ^ 53) : natToString x = Nat.repr x := by
  unfold natToString
  simp only [shortestDecimal_of_lt x h]
  rw [if_pos]
  have : (2 : Nat) ^ 53 < 10 ^ 21 := by norm_num
  omega

theorem numberToString_natCast (n : Nat) (h : n < 2 ^ 53) :
    numberToString (n : Int) = Nat.repr n :=
  natToString_of_lt n h

theorem mathFloorDiv_natCast (a b : Nat) (hb : 0 < b) (ha : a < 2 ^ 53) :
    mathFloorDiv (a : Int) b = ((a / b : Nat) : Int) := by
  unfold mathFloorDiv
  rw [if_pos (Int.ofNat_nonneg a), Int.natAbs_ofNat, floor_divDouble a b hb ha]

theorem padStart_length (s : String) (k : Nat) (c : Char) :
    (padStart s k c).length = max k s.length := by
  show (List.replicate (k - s.length) c ++ s.data).length = max k s.length
  rw [List.length_append, List.length_replicate]
  show k - s.length + s.length = max k s.length
  omega

theorem readDecimal_padStart_repr (n k : Nat) :
    readDecimal (padStart (Nat.repr n) k '0') = some n := by
  obtain ⟨h1, h2, h3, _, _⟩ := repr_spec n
  unfold readDecimal
  have hdata : (padStart (Nat.repr n) k '0').data
      = List.replicate (k - (Nat.repr n).length) '0' ++ (Nat.repr n).data := rfl
  rw [hdata, if_pos]
  · rw [List.foldl_append, foldl_replicate_zero, h3]
  · refine ⟨by simp [h1], ?_⟩
    rw [List.all_append, h2, Bool.and_true]
    simp [List.all_eq_true]

/-- On a non-negative argument below `2 ^ 53` the function `formatTime` is
ordinary natural-number division and remainder followed by zero padding. -/
theorem formatTime_natCast (ms : Nat) (hms : ms < 2 ^ 53) :
    formatTime (ms : Int) =
      { hours := padStart (Nat.repr (ms / 1000 / 3600)) 2 '0'
        minutes := padStart (Nat.repr (ms / 1000 % 3600 / 60)) 2 '0'
        seconds := padStart (Nat.repr (ms / 1000 % 60)) 2 '0'
        milliseconds := padStart (Nat.repr (ms % 1000)) 3 '0' } := by
  have e1 : mathFloorDiv (ms : Int) 1000 = ((ms / 1000 : Nat) : Int) :=
    mathFloorDiv_natCast ms 1000 (by decide) hms
  have e2 : mathFloorDiv ((ms / 1000 : Nat) : Int) 3600 = ((ms / 1000 / 3600 : Nat) : Int) :=
    mathFloorDiv_natCast _ 3600 (by decide) (by omega)
  have e3 : Int.tmod ((ms / 1000 : Nat) : Int) 3600 = ((ms / 1000 % 3600 : Nat) : Int) := by
    rw [Int.tmod_eq_emod (by positivity) (by decide)]; norm_cast
  have e4 : mathFloorDiv ((ms / 1000 % 3600 : Nat) : Int) 60
      = ((ms / 1000 % 3600 / 60 : Nat) : Int) :=
    mathFloorDiv_natCast _ 60 (by decide) (by omega)
  have e5 : Int.tmod ((ms / 1000 : Nat) : Int) 60 = ((ms / 1000 % 60 : Nat) : Int) := by
    rw [Int.tmod_eq_emod (by positivity) (by decide)]; norm_cast
  have e6 : Int.tmod (ms : Int) 1000 = ((ms % 1000 : Nat) : Int) := by
    rw [Int.tmod_eq_emod (by positivity) (by decide)]; norm_cast
  have n1 := numberToString_natCast (ms / 1000 / 3600) (by omega)
  have n2 := numberToString_natCast (ms / 1000 % 3600 / 60) (by omega)
  have n3 := numberToString_natCast (ms / 1000 % 60) (by omega)
  have n4 := numberToString_natCast (ms % 1000) (by omega)
  simp only [formatTime, e1, e2, e3, e4, e5, e6, n1, n2, n3, n4]

/-- C1 (as stated, refuted): 140737488355328992 is a non-negative integer a
JavaScript number holds exactly, and there the binary64 quotient ms / 1000
rounds up to 140737488355329, so the strings read as h = 39093746765, m = 22,
s = 9 and h*3600 + m*60 + s is floor(ms/1000) + 1, not floor(ms/1000). -/
theorem formatTime_rounds_up :
    isExactDouble 140737488355328992 = true ∧
    formatTime 140737488355328992
      = { hours := "39093746765", minutes := "22", seconds := "09", milliseconds := "992" } ∧
    readDecimal (formatTime 140737488355328992).hours = some 39093746765 ∧
    readDecimal (formatTime 140737488355328992).minutes = some 22 ∧
    readDecimal (formatTime 140737488355328992).seconds = some 9 ∧
    39093746765 * 3600 + 22 * 60 + 9 = 140737488355328992 / 1000 + 1 ∧
    39093746765 * 3600 + 22 * 60 + 9 ≠ 140737488355328992 / 1000 := by
  decide

/-- C1 (amended): for every non-negative integer ms below 2^53 the four
strings of formatTime(ms) read as decimal numbers h, m, s, r with
h*3600 + m*60 + s = floor(ms/1000), r = ms mod 1000, m < 60, s < 60 and
r < 1000; and formatTime(65432) is hours "00", minutes "01", seconds "05",
milliseconds "432". -/
theorem formatTime_recombines (ms : Nat) (hms : ms < 2 ^ 53) :
    (∃ h m s r : Nat,
      readDecimal (formatTime (ms : Int)).hours = some h ∧
      readDecimal (formatTime (ms : Int)).minutes = some m ∧
      readDecimal (formatTime (ms : Int)).seconds = some s ∧
      readDecimal (formatTime (ms : Int)).milliseconds = some r ∧
      h * 3600 + m * 60 + s = ms / 1000 ∧ r = ms % 1000 ∧
      m < 60 ∧ s < 60 ∧ r < 1000) ∧
    formatTime 65432
      = { hours := "00", minutes := "01", seconds := "05", milliseconds := "432" } := by
  refine ⟨?_, by decide⟩
  refine ⟨ms / 1000 / 3600, ms / 1000 % 3600 / 60, ms / 1000 % 60, ms % 1000, ?_⟩
  rw [formatTime_natCast ms hms]
  refine ⟨readDecimal_padStart_repr _ _, readDecimal_padStart_repr _ _,
    readDecimal_padStart_repr _ _, readDecimal_padStart_repr _ _, ?_, rfl, ?_, ?_, ?_⟩ <;> omega

/-- C1 (amended) at ms = 65432. -/
theorem formatTime_recombines_witness :
    (65432 : Nat) < 2 ^ 53 ∧
    ((∃ h m s r : Nat,
      readDecimal (formatTime ((65432 : Nat) : Int)).hours = some h ∧
      readDecimal (formatTime ((65432 : Nat) : Int)).minutes = some m ∧
      readDecimal (formatTime ((65432 : Nat) : Int)).seconds = some s ∧
      readDecimal (formatTime ((65432 : Nat) : Int)).milliseconds = some r ∧
      h * 3600 + m * 60 + s = 65432 / 1000 ∧ r = 65432 % 1000 ∧
      m < 60 ∧ s < 60 ∧ r < 1000) ∧
    formatTime 65432
      = { hours := "00", minutes := "01", seconds := "05", milliseconds := "432" }) :=
  ⟨by decide, formatTime_recombines 65432 (by decide)⟩

/-- C2 (as stated, refuted): at ms = 360000000, one hundred hours, the hours
string is "100", which has three digits and not two. -/
theorem formatTime_hours_three_digits :
    (formatTime 360000000).hours = "100" ∧ (formatTime 360000000).hours.length ≠ 2 := by
  decide

/-- C2 (amended): for every non-negative integer ms below 2^53 the minutes
and seconds strings have exactly 2 digits and the milliseconds string exactly
3; the hours string is the zero-padded decimal of floor(ms/3600000), never
wrapped at 24, with at least 2 digits and exactly 2 precisely when ms is below
360000000 (one hundred hours). -/
theorem formatTime_widths (ms : Nat) (hms : ms < 2 ^ 53) :
    (formatTime (ms : Int)).minutes.length = 2 ∧
    (formatTime (ms : Int)).seconds.length = 2 ∧
    (formatTime (ms : Int)).milliseconds.length = 3 ∧
    2 ≤ (formatTime (ms : Int)).hours.length ∧
    ((formatTime (ms : Int)).hours.length = 2 ↔ ms < 360000000) ∧
    readDecimal (formatTime (ms : Int)).hours = some (ms / 3600000) ∧
    (∃ m s r, readDecimal (formatTime (ms : Int)).minutes = some m ∧
      readDecimal (formatTime (ms : Int)).seconds = some s ∧
      readDecimal (formatTime (ms : Int)).milliseconds = some r) := by
  rw [formatTime_natCast ms hms]
  simp only [padStart_length]
  have hm := repr_length_le_two (ms / 1000 % 3600 / 60) (by omega)
  have hs := repr_length_le_two (ms / 1000 % 60) (by omega)
  have hr := repr_length_le_three (ms % 1000) (by omega)
  have hh : ms / 1000 / 3600 = ms / 3600000 := by omega
  refine ⟨by omega, by omega, by omega, by omega, ?_, ?_, ?_⟩
  · constructor
    · intro h
      by_contra hc
      have := repr_length_ge_three (ms / 1000 / 3600) (by omega)
      omega
    · intro h
      have := repr_length_le_two (ms / 1000 / 3600) (by omega)
      omega
  · rw [← hh]; exact readDecimal_padStart_repr _ _
  · exact ⟨_, _, _, readDecimal_padStart_repr _ _, readDecimal_padStart_repr _ _,
      readDecimal_padStart_repr _ _⟩

/-- C2 (amended) at ms = 359999999, the last millisecond with two-digit
hours. -/
theorem formatTime_widths_witness :
    (359999999 : Nat) < 2 ^ 53 ∧
    (formatTime ((359999999 : Nat) : Int)).minutes.length = 2 ∧
    (formatTime ((359999999 : Nat) : Int)).seconds.length = 2 ∧
    (formatTime ((359999999 : Nat) : Int)).milliseconds.length = 3 ∧
    2 ≤ (formatTime ((359999999 : Nat) : Int)).hours.length ∧
    ((formatTime ((359999999 : Nat) : Int)).hours.length = 2 ↔ 359999999 < 360000000) ∧
    readDecimal (formatTime ((359999999 : Nat) : Int)).hours = some (359999999 / 3600000) ∧
    (∃ m s r, readDecimal (formatTime ((359999999 : Nat) : Int)).minutes = some m ∧
      readDecimal (formatTime ((359999999 : Nat) : Int)).seconds = some s ∧
      readDecimal (formatTime ((359999999 : Nat) : Int)).milliseconds = some r) :=
  ⟨by decide, formatTime_widths 359999999 (by decide)⟩

end Stopwatch

/-! ## The scheduling invariant -/

namespace Stopwatch

theorem run_nil (s : State) : run [] s = s := rfl

theorem run_cons (e : Event) (evs : List Event) (s : State) :
    run (e :: evs) s = run evs (step s e) := rfl

theorem run_append (evs1 evs2 : List Event) (s : State) :
    run (evs1 ++ evs2) s = run evs2 (run evs1 s) := by
  unfold run; rw [List.foldl_append]

theorem idle_initialState : Idle initialState := ⟨rfl, rfl, rfl⟩

theorem startTimer_of_running (now : Int) (s : State) (h : s.isRunning = true) :
    startTimer now s = s := by
  simp [startTimer, h]

theorem stopTimer_of_stopped (s : State) (h : s.isRunning = false) : stopTimer s = s := by
  simp [stopTimer, h]

theorem recordLap_of_stopped (s : State) (h : s.isRunning = false) : recordLap s = s := by
  simp [recordLap, h]

theorem startTimer_isRunning (now : Int) (s : State) : (startTimer now s).isRunning = true := by
  unfold startTimer
  split
  · assumption
  · rfl

theorem stopTimer_isRunning (s : State) : (stopTimer s).isRunning = false := by
  unfold stopTimer
  split
  · rename_i h; simpa using h
  · rfl

theorem startTimer_of_idle (now : Int) (s : State) (h : Idle s) :
    RunningWith (startTimer now s) s.nextHandle (now - s.milliseconds) ∧
      (startTimer now s).milliseconds = s.milliseconds ∧
      (startTimer now s).nextHandle = s.nextHandle + 1 := by
  obtain ⟨h1, h2, h3⟩ := h
  simp [startTimer, h1, RunningWith, h3]

theorem stopTimer_of_runningWith (s : State) (handle : Nat) (startTime : Int)
    (h : RunningWith s handle startTime) :
    Idle (stopTimer s) ∧ (stopTimer s).milliseconds = s.milliseconds ∧
      (stopTimer s).nextHandle = s.nextHandle := by
  obtain ⟨h1, h2, h3⟩ := h
  simp [stopTimer, h1, Idle, clearInterval, h2, h3]

theorem tick_of_idle (handle : Nat) (now : Int) (s : State) (h : Idle s) :
    tick handle now s = s := by
  obtain ⟨_, _, h3⟩ := h
  simp [tick, h3]

theorem tick_of_runningWith (handle : Nat) (startTime now : Int) (s : State)
    (h : RunningWith s handle startTime) :
    tick handle now s = intervalCallback startTime now s := by
  obtain ⟨_, _, h3⟩ := h
  simp [tick, h3]

theorem tick_of_other (handle other : Nat) (startTime now : Int) (s : State)
    (h : RunningWith s handle startTime) (hne : other ≠ handle) :
    tick other now s = s := by
  obtain ⟨_, _, h3⟩ := h
  have : (handle == other) = false := by simpa using fun e => hne e.symm
  simp [tick, h3, this]

theorem tick_runningWith (handle other : Nat) (startTime now : Int) (s : State)
    (h : RunningWith s handle startTime) :
    RunningWith (tick other now s) handle startTime := by
  by_cases hne : other = handle
  · subst hne; rw [tick_of_runningWith _ _ _ _ h]; exact h
  · rw [tick_of_other _ _ _ _ _ h hne]; exact h

theorem scheduled_startTimer (now : Int) (s : State) (h : Scheduled s) :
    Scheduled (startTimer now s) := by
  rcases h with h | ⟨handle, st, h⟩
  · exact Or.inr ⟨_, _, (startTimer_of_idle now s h).1⟩
  · rw [startTimer_of_running now s h.1]; exact Or.inr ⟨_, _, h⟩

theorem idle_stopTimer (s : State) (h : Scheduled s) : Idle (stopTimer s) := by
  rcases h with h | ⟨handle, st, h⟩
  · rw [stopTimer_of_stopped s h.1]; exact h
  · exact (stopTimer_of_runningWith s handle st h).1

/-- The `if (isRunning) stopTimer()` of `resetTimer` is `stopTimer()` itself,
since `stopTimer` does nothing when the stopwatch is not running. -/
theorem resetTimer_eq (s : State) :
    resetTimer s =
      { updateDisplay { stopTimer s with milliseconds := 0, lapCounter := 0 } with
        lapsList := []
        lapsContainerActive := false
        startBtn := { disabled := false, opacity := some "1" }
        stopBtn := { disabled := true, opacity := some "0.5" }
        lapBtn := { disabled := true, opacity := some "0.5" }
        resetBtn :=
          { (updateDisplay { stopTimer s with milliseconds := 0, lapCounter := 0 }).resetBtn with
            disabled := false } } := by
  unfold resetTimer
  by_cases hr : s.isRunning = true
  · simp only [hr, if_true]
  · have hr' : s.isRunning = false := by simpa using hr
    rw [stopTimer_of_stopped s hr']
    simp only [hr', Bool.false_eq_true, if_false]

theorem idle_resetTimer (s : State) (h : Scheduled s) : Idle (resetTimer s) := by
  have hs := idle_stopTimer s h
  rw [resetTimer_eq]
  exact hs

theorem scheduled_recordLap (s : State) (h : Scheduled s) : Scheduled (recordLap s) := by
  unfold recordLap
  split
  · exact h
  · exact h

theorem scheduled_tick (handle : Nat) (now : Int) (s : State) (h : Scheduled s) :
    Scheduled (tick handle now s) := by
  rcases h with h | ⟨hd, st, h⟩
  · rw [tick_of_idle _ _ _ h]; exact Or.inl h
  · exact Or.inr ⟨_, _, tick_runningWith _ _ _ _ _ h⟩

theorem scheduled_keydown (key : String) (now : Int) (s : State) (h : Scheduled s) :
    Scheduled (keydown key now s) := by
  unfold keydown
  simp only
  split_ifs
  · exact scheduled_startTimer now s h
  · exact h
  · exact Or.inl (idle_stopTimer s h)
  · exact h
  · exact Or.inl (idle_resetTimer s h)
  · exact scheduled_recordLap s h
  · exact h
  · exact h

theorem scheduled_step (e : Event) (s : State) (h : Scheduled s) : Scheduled (step s e) := by
  cases e with
  | start now => exact scheduled_startTimer now s h
  | stop _ => exact Or.inl (idle_stopTimer s h)
  | reset _ => exact Or.inl (idle_resetTimer s h)
  | lap _ => exact scheduled_recordLap s h
  | key k now => exact scheduled_keydown k now s h
  | tick handle now => exact scheduled_tick handle now s h

theorem scheduled_run (evs : List Event) : ∀ s : State, Scheduled s → Scheduled (run evs s) := by
  induction evs with
  | nil => intro s h; exact h
  | cons e evs ih => intro s h; exact ih _ (scheduled_step e s h)

theorem intervalCallback_milliseconds (startTime now : Int) (s : State) :
    (intervalCallback startTime now s).milliseconds = now - startTime := rfl

/-- Firing the running interval at the readings `ts` leaves the stopwatch
running on the same interval, with `milliseconds` the offset of the last
reading from the captured start time. -/
theorem run_ticksOf_runningWith (handle : Nat) (st : Int) (ts : List Int) :
    ∀ (s : State) (last : Int), RunningWith s handle st → s.milliseconds = last - st →
      RunningWith (run (ticksOf handle ts) s) handle st ∧
      (run (ticksOf handle ts) s).milliseconds = ts.getLastD last - st ∧
      (run (ticksOf handle ts) s).nextHandle = s.nextHandle := by
  induction ts with
  | nil => intro s last h hm; exact ⟨h, hm, rfl⟩
  | cons t ts ih =>
    intro s last h hm
    have hstep : run (ticksOf handle (t :: ts)) s
        = run (ticksOf handle ts) (intervalCallback st t s) := by
      show run (ticksOf handle ts) (tick handle t s) = _
      rw [tick_of_runningWith handle st t s h]
    rw [hstep, List.getLastD_cons]
    exact ih (intervalCallback st t s) t h rfl

theorem run_ticks_idle (gap : List (Nat × Int)) :
    ∀ s : State, Idle s → run (firings gap) s = s := by
  induction gap with
  | nil => intro s _; rfl
  | cons p gap ih =>
    intro s h
    show run (firings gap) (tick p.1 p.2 s) = s
    rw [tick_of_idle _ _ _ h]
    exact ih s h

/-- What the pause/resume scenario leaves in `milliseconds`. -/
theorem pauseResume_milliseconds (t0 : Int) (ticks1 : List Int) (D1 : Int)
    (gap : List (Nat × Int)) (t1 : Int) (ticks2 : List Int) (D2 : Int) :
    (run (pauseResume t0 ticks1 D1 gap t1 ticks2 D2) initialState).milliseconds
      = (ticks1.getLastD t0 - t0) + (ticks2.getLastD t1 - t1) := by
  unfold pauseResume
  simp only [run_append]
  -- first running period
  obtain ⟨a1, a2, a3⟩ := startTimer_of_idle t0 initialState idle_initialState
  have e0 : run [Event.start t0] initialState = startTimer t0 initialState := rfl
  rw [e0]
  have hm0 : (startTimer t0 initialState).milliseconds = t0 - (t0 - initialState.milliseconds) := by
    rw [a2]; show (0 : Int) = t0 - (t0 - 0); omega
  obtain ⟨b1, b2, b3⟩ := run_ticksOf_runningWith _ _ ticks1 _ t0 a1 hm0
  have hh : initialState.nextHandle = 1 := rfl
  rw [hh] at b1 b2 b3
  generalize run (ticksOf 1 ticks1) (startTimer t0 initialState) = sA at b1 b2 b3
  -- pause
  obtain ⟨c1, c2, c3⟩ := stopTimer_of_runningWith sA _ _ b1
  have e1 : run [Event.stop (t0 + D1)] sA = stopTimer sA := rfl
  rw [e1, run_ticks_idle gap _ c1]
  generalize stopTimer sA = sB at c1 c2 c3
  -- second running period
  obtain ⟨d1, d2, d3⟩ := startTimer_of_idle t1 sB c1
  have e2 : run [Event.start t1] sB = startTimer t1 sB := rfl
  rw [e2]
  have hn : sB.nextHandle = 2 := by rw [c3, b3, a3, hh]
  rw [hn] at d1
  have hm1 : (startTimer t1 sB).milliseconds = t1 - (t1 - sB.milliseconds) := by
    rw [d2]; omega
  obtain ⟨f1, f2, _⟩ := run_ticksOf_runningWith _ _ ticks2 _ t1 d1 hm1
  generalize run (ticksOf 2 ticks2) (startTimer t1 sB) = sC at f1 f2
  obtain ⟨_, g2, _⟩ := stopTimer_of_runningWith sC _ _ f1
  have e3 : run [Event.stop (t1 + D2)] sC = stopTimer sC := rfl
  rw [e3, g2, f2, c2, b2]
  have : initialState.milliseconds = 0 := rfl
  rw [this]; omega

/-- C3 (as stated, refuted): start at 0, the interval fires at 10 and 20, stop
at 25 (D1 = 25), start again at 100, the interval fires at 110, stop at 117
(D2 = 17).  The elapsed value left is 30, not D1 + D2 = 42: `stopTimer` does
not read the clock. -/
theorem pause_resume_not_sum :
    (run (pauseResume 0 [10, 20] 25 [] 100 [110] 17) initialState).milliseconds = 30 ∧
    (run (pauseResume 0 [10, 20] 25 [] 100 [110] 17) initialState).milliseconds ≠ 25 + 17 := by
  decide

/-- C3 (amended): from the initial state, start at t0, stop at t0 + D1, start
at t1, stop at t1 + D2, under any schedule of interval firings, leaves
milliseconds = (a1 - t0) + (a2 - t1), where a1 and a2 are the clock readings
of the last firing in the first and in the second running period (the
period's start reading when no firing fell into it); firings while paused
change nothing.  This is D1 + D2 when the last firing of each period is at the
reading of its stop. -/
theorem pause_resume_accumulates (t0 t1 D1 D2 : Int) (ticks1 ticks2 : List Int)
    (gap : List (Nat × Int)) :
    (run (pauseResume t0 ticks1 D1 gap t1 ticks2 D2) initialState).milliseconds
      = (ticks1.getLastD t0 - t0) + (ticks2.getLastD t1 - t1) ∧
    (run (pauseResume t0 (ticks1 ++ [t0 + D1]) D1 gap t1 (ticks2 ++ [t1 + D2]) D2)
      initialState).milliseconds = D1 + D2 := by
  refine ⟨pauseResume_milliseconds _ _ _ _ _ _ _, ?_⟩
  rw [pauseResume_milliseconds]
  have h1 : (ticks1 ++ [t0 + D1]).getLastD t0 = t0 + D1 := by
    cases ticks1 <;> simp [List.getLastD]
  have h2 : (ticks2 ++ [t1 + D2]).getLastD t1 = t1 + D2 := by
    cases ticks2 <;> simp [List.getLastD]
  rw [h1, h2]; omega

/-! ## Monotonicity while running -/

theorem tick_milliseconds_le (handle other : Nat) (st last now : Int) (s : State)
    (h : RunningWith s handle st) (hm : s.milliseconds ≤ last - st) (hl : last ≤ now) :
    s.milliseconds ≤ (tick other now s).milliseconds ∧
      (tick other now s).milliseconds ≤ now - st := by
  by_cases hne : other = handle
  · subst hne
    rw [tick_of_runningWith _ _ _ _ h, intervalCallback_milliseconds]
    omega
  · rw [tick_of_other _ _ _ _ _ h hne]
    omega

theorem run_firings_bound (handle : Nat) (st t : Int) (ticks : List (Nat × Int)) :
    ∀ (s : State) (last : Int), RunningWith s handle st → s.milliseconds ≤ last - st →
      List.Chain (· ≤ ·) last (ticks.map Prod.snd ++ [t]) →
      RunningWith (run (firings ticks) s) handle st ∧
      ∃ last2, (run (firings ticks) s).milliseconds ≤ last2 - st ∧ last2 ≤ t := by
  induction ticks with
  | nil =>
    intro s last h hm hc
    refine ⟨h, last, hm, ?_⟩
    simpa using hc
  | cons p ticks ih =>
    intro s last h hm hc
    have hc2 : last ≤ p.2 ∧ List.Chain (· ≤ ·) p.2 (ticks.map Prod.snd ++ [t]) := by
      simpa using hc
    show RunningWith (run (firings ticks) (tick p.1 p.2 s)) handle st ∧ _
    exact ih (tick p.1 p.2 s) p.2 (tick_runningWith _ _ _ _ _ h)
      (tick_milliseconds_le _ _ _ _ _ _ h hm hc2.1).2 hc2.2

/-- C4: in a running period begun by startTimer at reading t0 from a stopped
reachable state, under interval firings whose clock readings are
non-decreasing and not earlier than t0, every firing sets milliseconds to a
value at least its previous value; the firing of the period's own interval
at reading t sets it to the value at start plus t - t0. -/
theorem elapsed_nondecreasing (evs : List Event) (t0 : Int) (ticks : List (Nat × Int))
    (handle : Nat) (t : Int)
    (hstopped : (run evs initialState).isRunning = false)
    (hclock : List.Chain (· ≤ ·) t0 (ticks.map Prod.snd ++ [t])) :
    (run (firings ticks) (startTimer t0 (run evs initialState))).milliseconds
      ≤ (tick handle t (run (firings ticks) (startTimer t0 (run evs initialState)))).milliseconds ∧
    (tick (run evs initialState).nextHandle t
        (run (firings ticks) (startTimer t0 (run evs initialState)))).milliseconds
      = (run evs initialState).milliseconds + (t - t0) := by
  have hs : Scheduled (run evs initialState) := scheduled_run evs _ (Or.inl idle_initialState)
  generalize run evs initialState = s0 at hs hstopped
  have hidle : Idle s0 := by
    rcases hs with h | ⟨_, _, h⟩
    · exact h
    · rw [h.1] at hstopped; exact absurd hstopped (by decide)
  obtain ⟨a1, a2, _⟩ := startTimer_of_idle t0 s0 hidle
  have hm : (startTimer t0 s0).milliseconds ≤ t0 - (t0 - s0.milliseconds) := by
    rw [a2]; omega
  obtain ⟨b1, last2, b2, b3⟩ := run_firings_bound _ _ t ticks _ t0 a1 hm hclock
  refine ⟨(tick_milliseconds_le _ handle _ _ t _ b1 b2 b3).1, ?_⟩
  rw [tick_of_runningWith _ _ _ _ b1, intervalCallback_milliseconds]
  omega

/-- C4 at a concrete schedule: start at 0 from the initial state, firings at
10 and 20. -/
theorem elapsed_nondecreasing_witness :
    (run (firings [(1, 10)]) (startTimer 0 (run [] initialState))).milliseconds
      ≤ (tick 1 20 (run (firings [(1, 10)]) (startTimer 0 (run [] initialState)))).milliseconds ∧
    (tick (run [] initialState).nextHandle 20
        (run (firings [(1, 10)]) (startTimer 0 (run [] initialState)))).milliseconds
      = (run [] initialState).milliseconds + (20 - 0) :=
  elapsed_nondecreasing [] 0 [(1, 10)] 1 20 (by decide) (by simp)

/-! ## No-ops -/

/-- C7: startTimer while running, stopTimer while stopped and recordLap while
stopped each return the state unchanged in every component; hence a second
start right after a start changes nothing, and neither does a stop when
already stopped. -/
theorem guarded_operations_are_noops (s : State) (now now2 : Int) :
    (s.isRunning = true → startTimer now s = s) ∧
    (s.isRunning = false → stopTimer s = s) ∧
    (s.isRunning = false → recordLap s = s) ∧
    startTimer now2 (startTimer now s) = startTimer now s ∧
    stopTimer (stopTimer s) = stopTimer s :=
  ⟨startTimer_of_running now s, stopTimer_of_stopped s, recordLap_of_stopped s,
    startTimer_of_running now2 _ (startTimer_isRunning now s),
    stopTimer_of_stopped _ (stopTimer_isRunning s)⟩

/-- C7 at concrete states: the running state reached by a start at 5, and the
initial (stopped) state. -/
theorem guarded_operations_are_noops_witness :
    startTimer 7 (startTimer 5 initialState) = startTimer 5 initialState ∧
    stopTimer initialState = initialState ∧
    recordLap initialState = initialState :=
  ⟨(guarded_operations_are_noops (startTimer 5 initialState) 7 0).1 (by decide),
    (guarded_operations_are_noops initialState 0 0).2.1 (by decide),
    (guarded_operations_are_noops initialState 0 0).2.2.1 (by decide)⟩

/-! ## Scheduling -/

/-- C8: in every state reached from the initial state by start, stop, reset,
lap and key events and interval firings, the handle is stored exactly while
running, the browser holds an interval exactly while running and never more
than one (the one whose handle is stored), and after stopTimer or resetTimer
no interval is left, so that no firing changes the state. -/
theorem at_most_one_interval (evs : List Event) :
    ((run evs initialState).timerInterval ≠ none ↔ (run evs initialState).isRunning = true) ∧
    ((run evs initialState).intervals ≠ [] ↔ (run evs initialState).isRunning = true) ∧
    (run evs initialState).intervals.length ≤ 1 ∧
    (run evs initialState).intervals.map Prod.fst
      = (run evs initialState).timerInterval.toList ∧
    (stopTimer (run evs initialState)).intervals = [] ∧
    (resetTimer (run evs initialState)).intervals = [] ∧
    (∀ handle now, tick handle now (stopTimer (run evs initialState))
      = stopTimer (run evs initialState)) ∧
    (∀ handle now, tick handle now (resetTimer (run evs initialState))
      = resetTimer (run evs initialState)) := by
  have hs : Scheduled (run evs initialState) := scheduled_run evs _ (Or.inl idle_initialState)
  generalize run evs initialState = s at hs
  have h1 := idle_stopTimer s hs
  have h2 := idle_resetTimer s hs
  refine ⟨?_, ?_, ?_, ?_, h1.2.2, h2.2.2, fun handle now => tick_of_idle _ _ _ h1,
    fun handle now => tick_of_idle _ _ _ h2⟩
  all_goals
    rcases hs with ⟨a, b, c⟩ | ⟨handle, st, a, b, c⟩
    · simp [a, b, c]
    · simp [a, b, c]

/-! ## Laps -/

theorem startTimer_laps (now : Int) (s : State) :
    (startTimer now s).lapsList = s.lapsList ∧ (startTimer now s).lapCounter = s.lapCounter := by
  unfold startTimer
  split <;> exact ⟨rfl, rfl⟩

theorem stopTimer_laps (s : State) :
    (stopTimer s).lapsList = s.lapsList ∧ (stopTimer s).lapCounter = s.lapCounter := by
  unfold stopTimer
  split <;> exact ⟨rfl, rfl⟩

theorem tick_laps (handle : Nat) (now : Int) (s : State) :
    (tick handle now s).lapsList = s.lapsList ∧ (tick handle now s).lapCounter = s.lapCounter ∧
      (tick handle now s).isRunning = s.isRunning := by
  unfold tick
  split <;> exact ⟨rfl, rfl, rfl⟩

theorem recordLap_of_running (s : State) (h : s.isRunning = true) :
    (recordLap s).lapsList
        = { lapNumber := s.lapCounter + 1, timeString := timeString (formatTime s.milliseconds) }
          :: s.lapsList ∧
      (recordLap s).lapCounter = s.lapCounter + 1 := by
  simp [recordLap, h]

/-- What one event other than a reset does to the lap list and the counter. -/
theorem step_laps (s : State) (e : Event) (hr : e.isReset = false) :
    (step s e).lapsList
        = (if e.isLap && s.isRunning then
            [{ lapNumber := s.lapCounter + 1
               timeString := timeString (formatTime s.milliseconds) }]
          else []) ++ s.lapsList ∧
      (step s e).lapCounter = s.lapCounter + (if e.isLap && s.isRunning then 1 else 0) := by
  cases e with
  | start now => simpa [step, Event.isLap] using startTimer_laps now s
  | stop now => simpa [step, Event.isLap] using stopTimer_laps s
  | reset now => simp [Event.isReset] at hr
  | tick handle now =>
    simpa [step, Event.isLap] using ⟨(tick_laps handle now s).1, (tick_laps handle now s).2.1⟩
  | lap now =>
    by_cases h : s.isRunning = true
    · simpa [step, Event.isLap, h] using recordLap_of_running s h
    · have h2 : s.isRunning = false := by simpa using h
      simp [step, Event.isLap, h2, recordLap_of_stopped s h2]
  | key k now =>
    have hr2 : toLowerCase k ≠ "r" := by simpa [Event.isReset] using hr
    by_cases hl : toLowerCase k = "l"
    · have e1 : step s (Event.key k now) = if s.isRunning then recordLap s else s := by
        simp [step, keydown, hl]
      rw [e1]
      by_cases h : s.isRunning = true
      · simpa [Event.isLap, hl, h] using recordLap_of_running s h
      · have h2 : s.isRunning = false := by simpa using h
        simp [Event.isLap, hl, h2]
    · have e1 : step s (Event.key k now)
          = if toLowerCase k = "s" then (if !s.isRunning then startTimer now s else s)
            else if toLowerCase k = "p" then (if s.isRunning then stopTimer s else s)
            else s := by
        simp [step, keydown, hl, hr2]
      rw [e1]
      have a := startTimer_laps now s
      have b := stopTimer_laps s
      simp only [Event.isLap, hl, decide_False, Bool.false_and, Bool.false_eq_true, if_false,
        List.nil_append, Nat.add_zero]
      split_ifs <;> first | exact a | exact b | exact ⟨rfl, rfl⟩

theorem lapEntriesFrom_concat (Ts : List Int) (T : Int) :
    ∀ c, lapEntriesFrom c (Ts ++ [T])
      = { lapNumber := c + Ts.length + 1, timeString := timeString (formatTime T) }
        :: lapEntriesFrom c Ts := by
  induction Ts with
  | nil => intro c; rfl
  | cons U Ts ih =>
    intro c
    show lapEntriesFrom (c + 1) (Ts ++ [T]) ++ _ = _
    rw [ih (c + 1)]
    have : c + 1 + Ts.length + 1 = c + (U :: Ts).length + 1 := by
      simp only [List.length_cons]; omega
    rw [this]
    rfl

theorem lapCaptures_cons (s : State) (e : Event) (es : List Event) :
    lapCaptures s (e :: es)
      = (if e.isLap && s.isRunning then [s.milliseconds] else [])
        ++ lapCaptures (step s e) es := rfl

theorem run_laps (evs : List Event) :
    ∀ s : State, (∀ e ∈ evs, e.isReset = false) →
      (run evs s).lapsList = lapEntriesFrom s.lapCounter (lapCaptures s evs) ++ s.lapsList ∧
      (run evs s).lapCounter = s.lapCounter + (lapCaptures s evs).length := by
  induction evs with
  | nil => intro s _; exact ⟨rfl, rfl⟩
  | cons e evs ih =>
    intro s hr
    obtain ⟨a1, a2⟩ := step_laps s e (hr e (List.mem_cons_self _ _))
    obtain ⟨b1, b2⟩ := ih (step s e) (fun x hx => hr x (List.mem_cons_of_mem _ hx))
    rw [run_cons, b1, b2, a1, a2, lapCaptures_cons]
    by_cases h : (e.isLap && s.isRunning) = true
    · simp only [h, if_true, List.singleton_append, List.length_cons]
      refine ⟨?_, by omega⟩
      show _ = (lapEntriesFrom (s.lapCounter + 1) _ ++ [_]) ++ s.lapsList
      rw [List.append_assoc]
      rfl
    · have h2 : (e.isLap && s.isRunning) = false := by simpa using h
      simp only [h2, Bool.false_eq_true, if_false, List.nil_append, Nat.add_zero]
      exact ⟨trivial, trivial⟩

/-- C5: from a state with no laps (lapCounter = 0 and an empty lap list, as at
app start or after a reset), under any events without a reset, the lap list
is [(n, Tn), ..., (1, T1)] where T1, ..., Tn are the elapsed values at the
lap requests made while running: newest first, numbered 1..n in recording
order, each showing formatTime of its elapsed value, a new lap going in front
of the unchanged earlier entries; for two laps it is [(2, T2), (1, T1)]. -/
theorem lap_ordering (s : State) (evs : List Event)
    (hc : s.lapCounter = 0) (hl : s.lapsList = [])
    (hr : ∀ e ∈ evs, e.isReset = false) :
    (run evs s).lapsList = lapEntries (lapCaptures s evs) ∧
    (run evs s).lapCounter = (lapCaptures s evs).length ∧
    (∀ (Ts : List Int) (T : Int), lapEntries (Ts ++ [T])
      = { lapNumber := Ts.length + 1, timeString := timeString (formatTime T) }
        :: lapEntries Ts) ∧
    (∀ T1 T2 : Int, lapEntries [T1, T2]
      = [{ lapNumber := 2, timeString := timeString (formatTime T2) },
         { lapNumber := 1, timeString := timeString (formatTime T1) }]) := by
  obtain ⟨a1, a2⟩ := run_laps evs s hr
  refine ⟨?_, ?_, ?_, fun T1 T2 => rfl⟩
  · rw [a1, hl, hc, List.append_nil]; rfl
  · rw [a2, hc, Nat.zero_add]
  · intro Ts T
    have := lapEntriesFrom_concat Ts T 0
    rw [Nat.zero_add] at this
    exact this

/-- C5 at a concrete run: start at 0, the interval fires at 1000, a lap, the
interval fires at 2500, a second lap (by the L key). -/
theorem lap_ordering_witness :
    (run [Event.start 0, Event.tick 1 1000, Event.lap 1003, Event.tick 1 2500,
        Event.key "L" 2504] initialState).lapsList
      = [{ lapNumber := 2, timeString := "00:00:02.500" },
         { lapNumber := 1, timeString := "00:00:01.000" }] := by
  have h := (lap_ordering initialState [Event.start 0, Event.tick 1 1000, Event.lap 1003,
    Event.tick 1 2500, Event.key "L" 2504] (by decide) (by decide) (by decide)).1
  rw [h]
  decide

/-! ## Reset -/

theorem run_firings_laps (ticks : List (Nat × Int)) :
    ∀ s : State, (run (firings ticks) s).lapsList = s.lapsList ∧
      (run (firings ticks) s).lapCounter = s.lapCounter ∧
      (run (firings ticks) s).isRunning = s.isRunning := by
  induction ticks with
  | nil => intro s; exact ⟨rfl, rfl, rfl⟩
  | cons p ticks ih =>
    intro s
    obtain ⟨a1, a2, a3⟩ := tick_laps p.1 p.2 s
    obtain ⟨b1, b2, b3⟩ := ih (tick p.1 p.2 s)
    show (run (firings ticks) (tick p.1 p.2 s)).lapsList = _ ∧ _
    exact ⟨b1.trans a1, b2.trans a2, b3.trans a3⟩

/-- C6: from every state resetTimer yields running = false, milliseconds = 0,
lapCounter = 0 and an empty lap list, and the first lap recorded after a
subsequent start (with any interval firings in between) is numbered 1 and is
the only entry of the list. -/
theorem reset_clears (s : State) (now : Int) (ticks : List (Nat × Int)) :
    (resetTimer s).isRunning = false ∧
    (resetTimer s).milliseconds = 0 ∧
    (resetTimer s).lapCounter = 0 ∧
    (resetTimer s).lapsList = [] ∧
    (recordLap (run (firings ticks) (startTimer now (resetTimer s)))).lapsList
      = [{ lapNumber := 1
           timeString := timeString (formatTime
             (run (firings ticks) (startTimer now (resetTimer s))).milliseconds) }] ∧
    (recordLap (run (firings ticks) (startTimer now (resetTimer s)))).lapCounter = 1 := by
  have r1 : (resetTimer s).isRunning = false := by
    rw [resetTimer_eq]; exact stopTimer_isRunning s
  have r2 : (resetTimer s).milliseconds = 0 := by rw [resetTimer_eq]; rfl
  have r3 : (resetTimer s).lapCounter = 0 := by rw [resetTimer_eq]; rfl
  have r4 : (resetTimer s).lapsList = [] := by rw [resetTimer_eq]
  obtain ⟨a1, a2⟩ := startTimer_laps now (resetTimer s)
  obtain ⟨b1, b2, b3⟩ := run_firings_laps ticks (startTimer now (resetTimer s))
  rw [startTimer_isRunning] at b3
  obtain ⟨c1, c2⟩ := recordLap_of_running _ b3
  refine ⟨r1, r2, r3, r4, ?_, ?_⟩
  · rw [c1, b1, a1, r4, b2, a2, r3]
  · rw [c2, b2, a2, r3]

/-! ## Button affordances -/

theorem affordances_initialState : Affordances initialState := by
  decide

theorem affordances_startTimer (now : Int) (s : State) (h : Affordances s) :
    Affordances (startTimer now s) := by
  unfold startTimer
  split
  · exact h
  · obtain ⟨_, _, _, h4, _⟩ := h
    simp [Affordances, Button.opacityMatches, h4]

theorem affordances_stopTimer (s : State) (h : Affordances s) : Affordances (stopTimer s) := by
  unfold stopTimer
  split
  · exact h
  · obtain ⟨_, _, _, h4, _⟩ := h
    simp [Affordances, Button.opacityMatches, clearInterval, h4]

theorem affordances_resetTimer (s : State) : Affordances (resetTimer s) := by
  rw [resetTimer_eq]
  have h := stopTimer_isRunning s
  simp [Affordances, Button.opacityMatches, updateDisplay, h]

theorem affordances_recordLap (s : State) (h : Affordances s) : Affordances (recordLap s) := by
  unfold recordLap
  split
  · exact h
  · exact h

theorem affordances_tick (handle : Nat) (now : Int) (s : State) (h : Affordances s) :
    Affordances (tick handle now s) := by
  unfold tick
  split
  · exact h
  · exact h

theorem affordances_keydown (key : String) (now : Int) (s : State) (h : Affordances s) :
    Affordances (keydown key now s) := by
  unfold keydown
  simp only
  split_ifs
  · exact affordances_startTimer now s h
  · exact h
  · exact affordances_stopTimer s h
  · exact h
  · exact affordances_resetTimer s
  · exact affordances_recordLap s h
  · exact h
  · exact h

theorem affordances_run (evs : List Event) :
    ∀ s : State, Affordances s → Affordances (run evs s) := by
  induction evs with
  | nil => intro s h; exact h
  | cons e evs ih =>
    intro s h
    apply ih
    cases e with
    | start now => exact affordances_startTimer now s h
    | stop now => exact affordances_stopTimer s h
    | reset now => exact affordances_resetTimer s
    | lap now => exact affordances_recordLap s h
    | key k now => exact affordances_keydown k now s h
    | tick handle now => exact affordances_tick handle now s h

/-- C9: in every state reached from the initial state (not running, start
enabled, stop and lap disabled) by start, stop, reset, lap and key events and
interval firings, the start button is disabled iff running, the stop and lap
buttons are enabled iff running, reset is enabled, and each opacity the
script has set is 0.5 on a disabled and 1 on an enabled button; after
resetTimer the stopwatch is not running, start is enabled with opacity 1,
stop and lap are disabled with opacity 0.5 and reset is enabled. -/
theorem affordances_follow_running (evs : List Event) :
    ((run evs initialState).startBtn.disabled = true
      ↔ (run evs initialState).isRunning = true) ∧
    ((run evs initialState).stopBtn.disabled = false
      ↔ (run evs initialState).isRunning = true) ∧
    ((run evs initialState).lapBtn.disabled = false
      ↔ (run evs initialState).isRunning = true) ∧
    (run evs initialState).resetBtn.disabled = false ∧
    (run evs initialState).startBtn.opacityMatches ∧
    (run evs initialState).stopBtn.opacityMatches ∧
    (run evs initialState).lapBtn.opacityMatches ∧
    (resetTimer (run evs initialState)).isRunning = false ∧
    (resetTimer (run evs initialState)).startBtn = { disabled := false, opacity := some "1" } ∧
    (resetTimer (run evs initialState)).stopBtn = { disabled := true, opacity := some "0.5" } ∧
    (resetTimer (run evs initialState)).lapBtn = { disabled := true, opacity := some "0.5" } ∧
    (resetTimer (run evs initialState)).resetBtn.disabled = false := by
  obtain ⟨h1, h2, h3, h4, h5, h6, h7⟩ := affordances_run evs _ affordances_initialState
  generalize run evs initialState = s at h1 h2 h3 h4 h5 h6 h7
  have r1 : (resetTimer s).isRunning = false := by
    rw [resetTimer_eq]; exact stopTimer_isRunning s
  refine ⟨by rw [h1], ?_, ?_, h4, h5, h6, h7, r1, ?_, ?_, ?_, ?_⟩
  · rw [h2]; cases s.isRunning <;> simp
  · rw [h3]; cases s.isRunning <;> simp
  all_goals rw [resetTimer_eq]

/-! ## Theme preference -/

/-- C10: with the stored slot an optional string and a fresh session starting
light, loadTheme yields dark exactly when the slot holds "dark" (light when it
is absent or holds anything else); toggleTheme flips the theme and writes to
the slot the theme it has just made current, "dark" or "light"; so loadTheme in
a fresh session after a toggle restores the theme the toggle chose, dark after
a toggle to dark. -/
theorem theme_round_trip :
    (∀ slot : Option String,
      (loadTheme (freshSession slot)).darkTheme = true ↔ slot = some "dark") ∧
    (loadTheme (freshSession none)).darkTheme = false ∧
    (∀ s : ThemeState, (toggleTheme s).darkTheme = !s.darkTheme) ∧
    (∀ s : ThemeState,
      (toggleTheme s).storedTheme = some (if (toggleTheme s).darkTheme then "dark" else "light")) ∧
    (∀ s : ThemeState,
      (loadTheme (freshSession (toggleTheme s).storedTheme)).darkTheme
        = (toggleTheme s).darkTheme) ∧
    (loadTheme (freshSession (toggleTheme (freshSession none)).storedTheme)).darkTheme
      = true := by
  refine ⟨?_, rfl, ?_, ?_, ?_, by decide⟩
  · intro slot
    unfold loadTheme freshSession
    by_cases h : slot = some "dark"
    · simp [h]
    · simp [h]
  · intro s
    unfold toggleTheme
    cases s.darkTheme <;> simp
  · intro s
    unfold toggleTheme
    cases s.darkTheme <;> simp
  · intro s
    unfold toggleTheme
    cases s.darkTheme <;> simp [loadTheme, freshSession]

end Stopwatch
